import Mathlib

/-!
Verification of the whispercap speech-transcription core against its
natural-language specification.  The Rust sources embedded here are
`src/lib/transcribe/src/subtitle.rs`, `src/lib/transcribe/src/vad.rs` and
`src/lib/transcribe/src/whisper.rs`.  Machine integers (`u64`, `usize`,
`i32`) are modelled as `Nat`/`Int`; every guarded Rust subtraction is a
guarded truncated subtraction here, and unguarded subtractions that can
underflow (a panic in a debug build) are modelled with `Option`.  Audio
samples (`f32`) are modelled as rationals; the only floating-point
operation a claim depends on is the RMS threshold comparison
`sqrt(mean(s^2)) > threshold`, which for a nonnegative threshold is
equivalent to `mean(s^2) > threshold^2`, so a VAD carries the square of
its threshold (`thresholdSq`) and the comparison is exact rational
arithmetic.  Rust strings are modelled as `List Char` (a Rust `char` is a
Unicode scalar value, as is a Lean `Char`); byte positions are recovered
with `Char.utf8Size`.
-/

namespace Whispercap

/-! Section: timestamp codec (`subtitle.rs`).

`ms_to_timestamp` renders `format!("{:02}:{:02}:{:02}{sep}{:03}", ...)`.
`padAtLeast2`/`padAtLeast3` reproduce the `{:02}` / `{:03}` zero-padding:
shorter decimal representations are left-padded with zeros, longer ones
are printed in full. -/

/-- Decimal digits of `n`, zero-padded on the left to width 2
(Rust `format!` with width specifier `02`). -/
def padAtLeast2 (n : ℕ) : List Char :=
  if n < 10 then '0' :: Nat.toDigits 10 n else Nat.toDigits 10 n

/-- Decimal digits of `n`, zero-padded on the left to width 3
(Rust `format!` with width specifier `03`). -/
def padAtLeast3 (n : ℕ) : List Char :=
  if n < 10 then '0' :: '0' :: Nat.toDigits 10 n
  else if n < 100 then '0' :: Nat.toDigits 10 n
  else Nat.toDigits 10 n

/-- Embedding of `subtitle.rs::ms_to_timestamp`: decompose milliseconds into
`HH:MM:SS` plus a 3-digit millisecond field behind `sep`. -/
def ms_to_timestamp (milliseconds : ℕ) (ms_sep : Char) : List Char :=
  let total_seconds := milliseconds / 1000
  let hours := total_seconds / 3600
  let minutes := (total_seconds % 3600) / 60
  let seconds := total_seconds % 60
  let millis := milliseconds % 1000
  padAtLeast2 hours ++ ':' :: padAtLeast2 minutes ++ ':' :: padAtLeast2 seconds
    ++ ms_sep :: padAtLeast3 millis

/-- Embedding of `subtitle.rs::ms_to_srt_timestamp`. -/
def ms_to_srt_timestamp (milliseconds : ℕ) : List Char :=
  ms_to_timestamp milliseconds ','

/-- Embedding of `subtitle.rs::ms_to_vtt_timestamp`. -/
def ms_to_vtt_timestamp (milliseconds : ℕ) : List Char :=
  ms_to_timestamp milliseconds '.'

/-- Numeric value of a decimal digit character. -/
def dval (c : Char) : ℕ := c.toNat - 48

/-- Parse one or two leading decimal digits (chrono numeric items such as
`%H`, `%M`, `%S` consume at most two digits and require at least one). -/
def parse2 : List Char → Option (ℕ × List Char)
  | c1 :: c2 :: rest =>
    if c1.isDigit then
      if c2.isDigit then some (10 * dval c1 + dval c2, rest)
      else some (dval c1, c2 :: rest)
    else none
  | [c1] => if c1.isDigit then some (dval c1, []) else none
  | [] => none

/-- Expect a literal character, consuming it. -/
def expectChar (c : Char) : List Char → Option (List Char)
  | d :: rest => if d = c then some rest else none
  | [] => none

/-- Model of chrono `%f`: consume up to nine leading decimal digits (at least one)
and read them as a plain integer, stored in the nanosecond field without
any fractional scaling.  `"123"` parses to the number 123, not to
123 000 000. -/
def parseFrac (l : List Char) : Option (ℕ × List Char) :=
  let ds := (l.takeWhile Char.isDigit).take 9
  if ds.isEmpty then none
  else some (ds.foldl (fun a c => 10 * a + dval c) 0, l.drop ds.length)

/-- Embedding of `subtitle.rs::srt_timestamp_to_ms`.  Modelled from the spec for the
chrono parser the source calls (`NaiveTime::parse_from_str` with pattern
`"%H:%M:%S,%f"`, a third-party library whose code is not under `src/`):
hour, minute and second are one- or two-digit fields subject to the
`NaiveTime` ranges, the whole input must be consumed, and per the source
comment the `%f` field lands in the nanosecond accessor as a direct
count, which the function then adds as milliseconds. -/
def srt_timestamp_to_ms (l : List Char) : Option ℕ :=
  match parse2 l with
  | none => none
  | some (hour, r1) =>
    match expectChar ':' r1 with
    | none => none
    | some r2 =>
      match parse2 r2 with
      | none => none
      | some (minute, r3) =>
        match expectChar ':' r3 with
        | none => none
        | some r4 =>
          match parse2 r4 with
          | none => none
          | some (second, r5) =>
            match expectChar ',' r5 with
            | none => none
            | some r6 =>
              match parseFrac r6 with
              | none => none
              | some (nano, r7) =>
                if hour < 24 ∧ minute < 60 ∧ second < 60 ∧
                    nano ≤ 999999999 ∧ r7 = [] then
                  some (hour * 3600000 + minute * 60000 + second * 1000 + nano)
                else
                  none

/-! Section: subtitle splitting (`subtitle.rs::split_subtitle_into_two`).

Rust strings are `List Char`; `char_indices` byte offsets are recovered
from `Char.utf8Size`, and slicing `&s[..k]` / `&s[k..]` at a character
boundary `k` is `byteTake k` / `byteDrop k`. -/

/-- UTF-8 byte length of a string (Rust `str::len`). -/
def utf8Len (l : List Char) : ℕ := (l.map Char.utf8Size).sum

/-- The Unicode `White_Space` code points, the set Rust
`char::is_whitespace` tests. -/
def isRustWhitespace (c : Char) : Bool :=
  c ∈ ['\u0009', '\u000A', '\u000B', '\u000C', '\u000D', '\u0020',
       '\u0085', '\u00A0', '\u1680', '\u2000', '\u2001', '\u2002',
       '\u2003', '\u2004', '\u2005', '\u2006', '\u2007', '\u2008',
       '\u2009', '\u200A', '\u2028', '\u2029', '\u202F', '\u205F',
       '\u3000']

/-- Rust `str::trim`: strip `White_Space` characters from both ends. -/
def rustTrim (l : List Char) : List Char :=
  ((l.dropWhile isRustWhitespace).reverse.dropWhile isRustWhitespace).reverse

/-- Rust `&s[..k]` for a byte offset `k` on a character boundary: the
longest prefix whose UTF-8 length is at most `k`. -/
def byteTake : ℕ → List Char → List Char
  | _, [] => []
  | k, c :: rest => if c.utf8Size ≤ k then c :: byteTake (k - c.utf8Size) rest else []

/-- Rust `&s[k..]` for a byte offset `k` on a character boundary. -/
def byteDrop : ℕ → List Char → List Char
  | _, [] => []
  | k, c :: rest => if c.utf8Size ≤ k then byteDrop (k - c.utf8Size) rest else c :: rest

/-- The delimiter set of `split_subtitle_into_two`. -/
def splitDelimiters : List Char := [' ', ',', '.', '，', '。']

/-- The candidate split byte-offsets: for every delimiter occurrence at
byte offset `i`, the offset `i + len_utf8` just past it, kept when it
does not exceed the total byte length (the loop over `char_indices`). -/
def splitPositionsGo (total : ℕ) : ℕ → List Char → List ℕ
  | _, [] => []
  | pos, c :: rest =>
    let next_pos := pos + c.utf8Size
    if c ∈ splitDelimiters ∧ next_pos ≤ total then
      next_pos :: splitPositionsGo total next_pos rest
    else
      splitPositionsGo total next_pos rest

def splitPositions (content : List Char) : List ℕ :=
  splitPositionsGo (utf8Len content) 0 content

/-- Rust `Iterator::min_by_key`: the first element attaining the minimal
key (ties go to the earliest element in scan order). -/
def minByKeyFirst (f : ℕ → ℕ) : List ℕ → Option ℕ
  | [] => none
  | x :: xs => some (xs.foldl (fun best y => if f y < f best then y else best) x)

/-- Embedding of `subtitle.rs::split_subtitle_into_two`.  The grapheme-cluster
segmentation of the `unicode_segmentation` crate (used only in the
no-delimiter branch) is an external collaborator, passed in as the
parameter `graphemes`; the claims hold for every segmentation.  The Rust
`end_timestamp - start_timestamp` is `u64` subtraction, a panic when
`start > end`; the claims only concern `start ≤ end`, where the truncated
subtraction below agrees. -/
def split_subtitle_into_two (graphemes : List Char → List (List Char))
    (start_timestamp end_timestamp : ℕ) (content : List Char) :
    Option ((ℕ × ℕ × List Char) × (ℕ × ℕ × List Char)) :=
  if content.isEmpty ∨ utf8Len (rustTrim content) ≤ 1 then
    none
  else
    let assemble : List Char → List Char →
        Option ((ℕ × ℕ × List Char) × (ℕ × ℕ × List Char)) :=
      fun first_part second_part =>
        let total_chars := content.length
        let first_part_chars := first_part.length
        let duration := end_timestamp - start_timestamp
        let split_time := start_timestamp + duration * first_part_chars / total_chars
        some ((start_timestamp, split_time, first_part),
            (split_time, end_timestamp, second_part))
    let split_positions := splitPositions content
    if split_positions.isEmpty then
      let gs := graphemes content
      let mid := gs.length / 2
      assemble (gs.take mid).flatten (gs.drop mid).flatten
    else
      let target_split := utf8Len content / 2
      match minByKeyFirst (fun pos => ((pos : ℤ) - (target_split : ℤ)).natAbs)
          split_positions with
      | none => none
      | some best_split =>
        assemble (rustTrim (byteTake best_split content))
          (rustTrim (byteDrop best_split content))

/-- The grapheme segmentation that puts every Unicode scalar in its own
cluster; it agrees with `unicode_segmentation` on text without combining
sequences, and instantiates counterexamples and witnesses. -/
def simpleGraphemes (l : List Char) : List (List Char) := l.map (fun c => [c])

/-! Section: energy-based voice activity detection (`vad.rs`).

`EnergyVAD.calculate_rms` is `sqrt(sum(s^2) / len)` over `f32` samples.
Every threshold the program constructs is nonnegative (`0.1` in `new`, or
an RMS scaled by a nonnegative factor), and for `t ≥ 0` the comparison
`sqrt(m) > t` is exactly `m > t^2`, so the structure stores `thresholdSq`,
the square of the Rust `threshold` field, and `contain_speech` compares
mean squares — exact rational arithmetic in place of `f32`/`sqrt`.

The frame geometry `((sample_rate * ms) as f32 / 1000.0) as usize` is
modelled as `sample_rate * ms / 1000` in `ℕ`: for the sample rates the
pipeline admits (16 kHz, and products below 2^24 divisible by 1000) the
`f32` division is exact, so the two agree. -/

structure EnergyVAD where
  /-- Square of the Rust `threshold : f32` field. -/
  thresholdSq : ℚ
  sample_rate : ℕ
  frame_size_ms : ℕ
  frame_shift_ms : ℕ

namespace EnergyVAD

/-- Embedding of `EnergyVAD::new`: threshold 0.1 (stored squared: 1/100), frame size
200 ms, frame shift 100 ms. -/
def new (sample_rate : ℕ) : EnergyVAD :=
  { thresholdSq := 1 / 100
    sample_rate := sample_rate
    frame_size_ms := 200
    frame_shift_ms := 100 }

/-- Embedding of `EnergyVAD::with_threshold`, taking the square of the new threshold. -/
def with_threshold (vad : EnergyVAD) (thresholdSq : ℚ) : EnergyVAD :=
  { vad with thresholdSq := thresholdSq }

def with_frame_size_ms (vad : EnergyVAD) (ms : ℕ) : EnergyVAD :=
  { vad with frame_size_ms := ms }

def with_frame_shift_ms (vad : EnergyVAD) (ms : ℕ) : EnergyVAD :=
  { vad with frame_shift_ms := ms }

end EnergyVAD

/-- Mean square `sum(s^2) / len`: the square of `EnergyVAD::calculate_rms`.  For an
empty slice the Rust code divides by zero in `f32` (NaN); here `ℚ`
division by zero gives 0, and `contain_speech` never consults the value
on an empty slice. -/
def meanSq (samples : List ℚ) : ℚ :=
  (samples.map (fun s => s * s)).sum / samples.length

/-- Embedding of `EnergyVAD::contain_speech`: false on an empty slice, otherwise
`rms > threshold`, expressed on squares. -/
def contain_speech (vad : EnergyVAD) (samples : List ℚ) : Bool :=
  if samples.isEmpty then false
  else decide (meanSq samples > vad.thresholdSq)

/-- Frame size in samples: `(sample_rate * frame_size_ms) / 1000`. -/
def frameSizeOf (vad : EnergyVAD) : ℕ := vad.sample_rate * vad.frame_size_ms / 1000

/-- Frame shift (hop) in samples: `(sample_rate * frame_shift_ms) / 1000`. -/
def frameShiftOf (vad : EnergyVAD) : ℕ := vad.sample_rate * vad.frame_shift_ms / 1000

/-- The number of offsets `(0..len).step_by(shift)` yields, i.e.
`ceil(len / shift)`.  (`step_by(0)` panics in Rust; the claims only
instantiate a positive shift.) -/
def numOffsets (len shift : ℕ) : ℕ := (len + shift - 1) / shift

/-- The frame scanned at step index `i`:
`samples[i*shift .. min(i*shift + frame_size, len)]`. -/
def frameAt (vad : EnergyVAD) (samples : List ℚ) (i : ℕ) : List ℚ :=
  let offset := i * frameShiftOf vad
  let frame_end := min (offset + frameSizeOf vad) samples.length
  (samples.drop offset).take (frame_end - offset)

/-- Loop body state of `detect_all_active_segments`:
`(segments, start_ms, end_ms, in_active_segment)`. -/
abbrev DetectState := List (ℕ × ℕ) × ℕ × ℕ × Bool

/-- The scan loop of `EnergyVAD::detect_all_active_segments` over the
step indices; `offset >= frame_end` breaks out of the loop. -/
def detectGo (vad : EnergyVAD) (samples : List ℚ) : List ℕ → DetectState → DetectState
  | [], st => st
  | i :: rest, (segments, start_ms, end_ms, in_active) =>
    let offset := i * frameShiftOf vad
    let frame_end := min (offset + frameSizeOf vad) samples.length
    if frame_end ≤ offset then (segments, start_ms, end_ms, in_active)
    else
      let frame := (samples.drop offset).take (frame_end - offset)
      if contain_speech vad frame then
        detectGo vad samples rest (segments, start_ms, end_ms + vad.frame_shift_ms, true)
      else
        let segments := if in_active then segments ++ [(start_ms, end_ms)] else segments
        let start_ms := i * vad.frame_shift_ms
        detectGo vad samples rest (segments, start_ms, start_ms, false)

/-- Embedding of `EnergyVAD::detect_all_active_segments`.  `total_ms` renders
`((len as f64 / rate) * 1000.0) as u64` as `len * 1000 / rate` (exact for
the 16 kHz data the pipeline feeds it). -/
def detect_all_active_segments (vad : EnergyVAD) (samples : List ℚ) : List (ℕ × ℕ) :=
  let total_ms := samples.length * 1000 / vad.sample_rate
  let idxs := List.range (numOffsets samples.length (frameShiftOf vad))
  let st := detectGo vad samples idxs ([], 0, 0, false)
  let segments := st.1
  let start_ms := st.2.1
  match segments.getLast? with
  | some (_, last_end_ms) =>
    if start_ms ≥ last_end_ms ∧ last_end_ms < total_ms then
      segments ++ [(start_ms, total_ms)]
    else segments
  | none => segments

/-- The scan loop of `EnergyVAD::detect_leading_silent_duration_ms`:
first speech frame at step 0 gives 0, at step `i > 0` gives
`i * frame_shift_ms`; a frame with `offset >= frame_end`, or exhausting
the scan, gives 0. -/
def leadingGo (vad : EnergyVAD) (samples : List ℚ) : List ℕ → ℕ
  | [] => 0
  | i :: rest =>
    let offset := i * frameShiftOf vad
    let frame_end := min (offset + frameSizeOf vad) samples.length
    if frame_end ≤ offset then 0
    else
      let frame := (samples.drop offset).take (frame_end - offset)
      if contain_speech vad frame then i * vad.frame_shift_ms
      else leadingGo vad samples rest

/-- Embedding of `EnergyVAD::detect_leading_silent_duration_ms`. -/
def detect_leading_silent_duration_ms (vad : EnergyVAD) (samples : List ℚ) : ℕ :=
  leadingGo vad samples (List.range (numOffsets samples.length (frameShiftOf vad)))

/-- The backward scan of `EnergyVAD::detect_trailing_silent_duration_ms`
over `(0..total_frames).rev()`, given as the decreasing index list. -/
def trailingGo (vad : EnergyVAD) (samples : List ℚ) (total_frames : ℕ) : List ℕ → ℕ
  | [] => 0
  | i :: rest =>
    let offset := i * frameShiftOf vad
    let frame_end := min (offset + frameSizeOf vad) samples.length
    if frame_end ≤ offset then 0
    else
      let frame := (samples.drop offset).take (frame_end - offset)
      if contain_speech vad frame then
        if i = total_frames - 1 then 0
        else (total_frames - i - 1) * vad.frame_shift_ms + vad.frame_size_ms
      else trailingGo vad samples total_frames rest

/-- Embedding of `EnergyVAD::detect_trailing_silent_duration_ms`.  The Rust line
`let total_frames = (samples.len() - frame_size + frame_shift - 1) / frame_shift;`
is unchecked `usize` arithmetic: when `samples.len() < frame_size` the
first subtraction underflows (a panic in a debug build, a wrap in
release), and when `frame_shift = 0` the division panics; both are
modelled as `none`. -/
def detect_trailing_silent_duration_ms (vad : EnergyVAD) (samples : List ℚ) : Option ℕ :=
  let frame_size := frameSizeOf vad
  let frame_shift := frameShiftOf vad
  if samples.length < frame_size then none
  else if samples.length - frame_size + frame_shift = 0 then none
  else if frame_shift = 0 then none
  else
    let total_frames := (samples.length - frame_size + frame_shift - 1) / frame_shift
    some (trailingGo vad samples total_frames (List.range total_frames).reverse)

/-! Section: silence trimming (`vad.rs::trim_slient_duration_of_audio`).

The function reads a WAV file, slices the window `[start_ms, end_ms)` out
of the samples, builds an adaptive-threshold VAD over the slice and asks
it for the leading and trailing silent durations.  The per-window
arithmetic (lines 198-247 of `vad.rs`) is embedded exactly; the two VAD
results are supplied by oracle functions `lead`/`trail` of the window, so
every theorem below holds for every value the `f32` VAD could produce
(the oracle also ranges over runs where the trailing-silence detector
would panic on a short slice — that panic is analysed separately on
`detect_trailing_silent_duration_ms` itself).  The cancellation flag is
an `AtomicBool` read once before each window; it is modelled as a
function of the window index. -/

/-- Modelled from the spec: the `ProgressStatus` enum of the transcribe
library's module root (not under `src/`); the spec distinguishes a
normal `Finished` outcome from a distinct `Cancelled` status that is not
an error. -/
inductive ProgressStatus
  | Finished
  | Cancelled
deriving DecidableEq

/-- Computation of `new_start_ms` of a window (vad.rs lines 218-227); `frame_size_ms`
is the VAD's frame width (200 ms for the VAD this function builds). -/
def trimNewStart (frame_size_ms start_ms leading : ℕ) : ℕ :=
  if leading = 0 then start_ms
  else if leading > frame_size_ms then start_ms + leading - frame_size_ms
  else start_ms

/-- Computation of `new_end_ms` of a window (vad.rs lines 230-240). -/
def trimNewEnd (frame_size_ms start_ms end_ms trailing : ℕ) : ℕ :=
  if trailing = 0 then end_ms
  else
    let duration_ms := end_ms - start_ms
    let silent_offset_ms := if trailing > frame_size_ms then trailing - frame_size_ms else 0
    end_ms - min silent_offset_ms duration_ms

/-- One window of `trim_slient_duration_of_audio` past the slice check:
trim both ends, but revert to the original window when the result is
degenerate (vad.rs lines 242-247). -/
def trimWindow (frame_size_ms start_ms end_ms leading trailing : ℕ) : ℕ × ℕ :=
  let new_start_ms := trimNewStart frame_size_ms start_ms leading
  let new_end_ms := trimNewEnd frame_size_ms start_ms end_ms trailing
  if new_start_ms ≥ new_end_ms then (start_ms, end_ms) else (new_start_ms, new_end_ms)

/-- The window loop of `trim_slient_duration_of_audio`: check the
cancellation flag, compute the slice indices, keep degenerate-slice
windows unchanged, otherwise trim via the (oracle-supplied) VAD results.
Progress reporting has no effect on the result and is omitted. -/
def trimGo (sample_rate total_indexs : ℕ) (lead trail : ℕ → ℕ → ℕ)
    (cancel : ℕ → Bool) : ℕ → List (ℕ × ℕ) → List (ℕ × ℕ) →
    List (ℕ × ℕ) × ProgressStatus
  | _, acc, [] => (acc, ProgressStatus.Finished)
  | i, acc, (start_ms, end_ms) :: rest =>
    if cancel i then ([], ProgressStatus.Cancelled)
    else
      let start_index := sample_rate * start_ms / 1000
      let end_index := min (sample_rate * end_ms / 1000) total_indexs
      if start_index ≥ end_index then
        trimGo sample_rate total_indexs lead trail cancel (i + 1)
          (acc ++ [(start_ms, end_ms)]) rest
      else
        trimGo sample_rate total_indexs lead trail cancel (i + 1)
          (acc ++ [trimWindow 200 start_ms end_ms (lead start_ms end_ms)
              (trail start_ms end_ms)]) rest

/-- Embedding of `vad.rs::trim_slient_duration_of_audio` on an already-loaded,
whisper-compatible sample buffer of length `total_indexs` at
`sample_rate`. -/
def trim_slient_duration_of_audio (sample_rate total_indexs : ℕ)
    (lead trail : ℕ → ℕ → ℕ) (cancel : ℕ → Bool)
    (timestamps : List (ℕ × ℕ)) : List (ℕ × ℕ) × ProgressStatus :=
  trimGo sample_rate total_indexs lead trail cancel 0 [] timestamps

/-! Section: whisper transcription (`whisper.rs`). -/

structure WhisperConfig where
  model_path : String
  vad_model_path : Option String
  language : Option String
  translate : Bool
  n_threads : ℤ
  /-- `temperature : f32`; the validation bounds 0.0 and 1.0 are exact
  in `ℚ`. -/
  temperature : ℚ
  max_segment_length : Option ℕ
  initial_prompt : Option String
  debug_mode : Bool
  chunk_length_ms : Option ℕ
  chunk_overlap_ms : Option ℕ

namespace WhisperConfig

def should_use_chunking (config : WhisperConfig) : Bool :=
  config.chunk_length_ms.isSome ∧ config.chunk_length_ms.getD 0 > 0

/-- Embedding of `WhisperConfig::validate`.  The filesystem is external state, passed
as the predicate `fsExists` (`Path::exists`). -/
def validate (fsExists : String → Bool) (config : WhisperConfig) :
    Except String Unit :=
  if ¬ fsExists config.model_path then
    Except.error ("model path not exist: " ++ config.model_path)
  else if config.n_threads ≤ 0 then
    Except.error "n_threads is 0"
  else if ¬ (0 ≤ config.temperature ∧ config.temperature ≤ 1) then
    Except.error "temperature should between 0.0 and 1.0"
  else
    Except.ok ()

end WhisperConfig

/-- Structure `WhisperTranscriber` holds the loaded model context and the config;
the context itself is external and not represented. -/
structure WhisperTranscriber where
  config : WhisperConfig

/-- Embedding of `WhisperTranscriber::new`: validate the configuration first, then
load the model.  The loader (`WhisperContext::new_with_params`) is an
external collaborator, passed as `loadModel`. -/
def WhisperTranscriber.new (fsExists : String → Bool)
    (loadModel : String → Except String Unit) (config : WhisperConfig) :
    Except String WhisperTranscriber :=
  match WhisperConfig.validate fsExists config with
  | Except.error e => Except.error e
  | Except.ok _ =>
    match loadModel config.model_path with
    | Except.error e => Except.error ("Load Whisper model error: " ++ e)
    | Except.ok _ => Except.ok ⟨config⟩

/-- One raw segment as the whisper inference state exposes it:
centisecond timestamps, text, and the value
`calculate_segment_confidence` computes for it (a token-probability
average over `f32` tokens, abstracted to the resulting rational). -/
structure RawSegment where
  start_ts : ℕ
  end_ts : ℕ
  text : List Char
  confidence : ℚ

structure TranscriptionSegment where
  index : ℤ
  start_time : ℕ
  end_time : ℕ
  text : List Char
  confidence : ℚ
deriving DecidableEq

/-- The segment loop of
`WhisperTranscriber::extract_transcription_result_with_offset`: `i` runs
over all raw segment slots (`0..num_segments`); a missing segment
(`get_segment` returning `None`, modelled by `none`) or one whose text
trims to empty is skipped, but `i` still advances; a kept segment gets
`index = start_segment_index + i + 1` and timestamps scaled from
centiseconds to milliseconds. -/
def extractGo (start_segment_index : ℤ) : ℕ → List (Option RawSegment) →
    List TranscriptionSegment
  | _, [] => []
  | i, none :: rest => extractGo start_segment_index (i + 1) rest
  | i, some seg :: rest =>
    let segment_text := rustTrim seg.text
    if segment_text.isEmpty then
      extractGo start_segment_index (i + 1) rest
    else
      { index := start_segment_index + (i : ℤ) + 1
        start_time := seg.start_ts * 10
        end_time := seg.end_ts * 10
        text := segment_text
        confidence := seg.confidence } :: extractGo start_segment_index (i + 1) rest

/-- The segment list `extract_transcription_result_with_offset` builds
(the surrounding `TranscriptionResult` text/duration bookkeeping carries
no claim and is omitted). -/
def extract_transcription_result_with_offset (start_segment_index : ℤ)
    (raw : List (Option RawSegment)) : List TranscriptionSegment :=
  extractGo start_segment_index 0 raw

/-- The chunk loop of `WhisperTranscriber::transcribe_audio_data_chunked`
on the segment level: each chunk is an offset `start_offset_ms` together
with the raw segments its inference run produced; the chunk's segments
are extracted with the running `global_segment_index`, the counter
advances by the number of *kept* segments, and every kept segment's
timestamps are shifted by the chunk offset.  Callbacks, the joined text
and the abort check (false throughout a completed run) are omitted. -/
def mergeChunksGo : ℤ → List (ℕ × List (Option RawSegment)) →
    List TranscriptionSegment
  | _, [] => []
  | global_segment_index, (start_offset_ms, raw) :: rest =>
    let segs := extract_transcription_result_with_offset global_segment_index raw
    let adjusted := segs.map fun s =>
      { s with start_time := s.start_time + start_offset_ms
               end_time := s.end_time + start_offset_ms }
    adjusted ++ mergeChunksGo (global_segment_index + segs.length) rest

/-- The merged segment timeline of a completed chunked transcription. -/
def mergeChunks (chunks : List (ℕ × List (Option RawSegment))) :
    List TranscriptionSegment :=
  mergeChunksGo 0 chunks

/-! Section: silence-aware chunking
(`whisper.rs::split_audio_into_chunks` / `find_silence_split_point`).

`f64` sample-index arithmetic (`(ms as f64 * rate / 1000.0) as usize`
and the duration/offset conversions) is modelled as exact rational
arithmetic floored to `ℕ`; for 16 kHz audio the two agree. -/

/-- The sample buffer and rate of `wav::AudioData` (the channel layout
carries no claim here; chunking runs on the already-mono buffer). -/
structure AudioData where
  samples : List ℚ
  sample_rate : ℕ

structure AudioChunk where
  samples : List ℚ
  start_offset_ms : ℕ
deriving DecidableEq

/-- The frame scan of `find_silence_split_point`: walk the search window
frame by frame keeping the start of the current silence run; the first
speech frame preceded by at least `min_silence_samples` of silence
returns the midpoint of that run (an offset into the search window). -/
def silenceScanGo (vad : EnergyVAD) (search_samples : List ℚ)
    (frame_size frame_shift min_silence_samples : ℕ) :
    List ℕ → Option ℕ → Option ℕ
  | [], _ => none
  | i :: rest, silence_start_offset =>
    let frame_offset := i * frame_shift
    if frame_offset ≥ search_samples.length then none
    else
      let frame_end := min (frame_offset + frame_size) search_samples.length
      let frame := (search_samples.drop frame_offset).take (frame_end - frame_offset)
      if contain_speech vad frame then
        match silence_start_offset with
        | some start_offset =>
          let silence_duration_samples := frame_offset - start_offset
          if silence_duration_samples ≥ min_silence_samples then
            some (start_offset + silence_duration_samples / 2)
          else
            silenceScanGo vad search_samples frame_size frame_shift
              min_silence_samples rest none
        | none =>
          silenceScanGo vad search_samples frame_size frame_shift
            min_silence_samples rest none
      else
        match silence_start_offset with
        | some start_offset =>
          silenceScanGo vad search_samples frame_size frame_shift
            min_silence_samples rest (some start_offset)
        | none =>
          silenceScanGo vad search_samples frame_size frame_shift
            min_silence_samples rest (some frame_offset)

/-- Embedding of `WhisperTranscriber::find_silence_split_point`: search up to
`max_search_ms` past `target_end` for a ≥ 500 ms silence run under an
adaptive threshold of half the search window's RMS (stored squared:
a quarter of the mean square); the returned flag records whether a
silence-aligned split was found. -/
def find_silence_split_point (samples : List ℚ) (target_end sample_rate : ℕ)
    (max_search_ms : ℕ) : ℕ × Bool :=
  let max_search_samples := max_search_ms * sample_rate / 1000
  let search_end := min (target_end + max_search_samples) samples.length
  let search_samples := (samples.drop target_end).take (search_end - target_end)
  if search_samples.isEmpty then (target_end, false)
  else
    let rms_threshold_sq := meanSq search_samples / 4
    let vad := (((EnergyVAD.new sample_rate).with_threshold rms_threshold_sq).with_frame_size_ms
        200).with_frame_shift_ms 100
    let frame_size := sample_rate * vad.frame_size_ms / 1000
    let frame_shift := sample_rate * vad.frame_shift_ms / 1000
    let min_silence_samples := 500 * sample_rate / 1000
    match silenceScanGo vad search_samples frame_size frame_shift min_silence_samples
        (List.range (numOffsets search_samples.length frame_shift)) none with
    | some split_offset => (min (target_end + split_offset) samples.length, true)
    | none => (target_end, false)

/-- Fuel-bounded rendering of the `while current_start < total_samples` loop of
`split_audio_into_chunks`, with explicit fuel.  The source loop can fail
to make progress when the overlap reaches the chunk length (the spec's
open question on a minimum-progress invariant); the fuel
`total_samples + 1` exceeds the iterations of every terminating run, and
an exhausted fuel returns the chunks accumulated so far.  The Rust
subtractions `chunk_end - overlap_samples` and
`total_samples - overlap_samples` are unchecked `usize`; truncated
subtraction agrees wherever the source does not panic. -/
def chunkLoop (samples : List ℚ) (sample_rate total_samples chunk_samples
    overlap_samples : ℕ) : ℕ → ℕ → List AudioChunk → List AudioChunk
  | 0, _, acc => acc
  | fuel + 1, current_start, acc =>
    if current_start < total_samples then
      let ideal_chunk_end := min (current_start + chunk_samples) total_samples
      let split :=
        if ideal_chunk_end < total_samples then
          find_silence_split_point samples ideal_chunk_end sample_rate 30000
        else (ideal_chunk_end, false)
      let chunk_end := split.1
      let is_split_in_slient_point := split.2
      let chunk_samples_data := (samples.drop current_start).take (chunk_end - current_start)
      let offset_ms := current_start * 1000 / sample_rate
      let acc := acc ++ [⟨chunk_samples_data, offset_ms⟩]
      let next_start := if is_split_in_slient_point then chunk_end
        else chunk_end - overlap_samples
      if next_start ≥ total_samples - overlap_samples then acc
      else chunkLoop samples sample_rate total_samples chunk_samples overlap_samples
        fuel next_start acc
    else acc

/-- Embedding of `WhisperTranscriber::split_audio_into_chunks`. -/
def split_audio_into_chunks (config : WhisperConfig) (audio : AudioData) :
    List AudioChunk :=
  let chunk_length_ms := config.chunk_length_ms.getD 60000
  let overlap_ms := config.chunk_overlap_ms.getD 1000
  let sample_rate := audio.sample_rate
  let total_samples := audio.samples.length
  let total_duration_ms : ℚ := ((total_samples : ℚ) / (sample_rate : ℚ)) * 1000
  if total_duration_ms ≤ (chunk_length_ms : ℚ) then
    [⟨audio.samples, 0⟩]
  else
    let chunk_samples := chunk_length_ms * sample_rate / 1000
    let overlap_samples := overlap_ms * sample_rate / 1000
    chunkLoop audio.samples sample_rate total_samples chunk_samples overlap_samples
      (total_samples + 1) 0 []

/-- Helper for `Result::is_ok` on `Except`, spelt out so statements do
not depend on library-version details. -/
def exceptIsOk {ε α : Type} : Except ε α → Bool
  | Except.ok _ => true
  | Except.error _ => false

/-- Chunk outputs in which every raw segment slot is present
(`get_segment` never returns `None`). -/
def liftChunks (cs : List (ℕ × List RawSegment)) :
    List (ℕ × List (Option RawSegment)) :=
  cs.map (fun c => (c.1, c.2.map some))

/-- All raw segments of all chunks, each paired with its chunk's offset,
in order. -/
def flatChunks (cs : List (ℕ × List RawSegment)) : List (ℕ × RawSegment) :=
  cs.flatMap (fun c => c.2.map (fun r => (c.1, r)))

/-! Section: helper lemmas. -/

theorem trimWindow_lt (f s e l t : ℕ) (h : s < e) :
    (trimWindow f s e l t).1 < (trimWindow f s e l t).2 := by
  simp only [trimWindow, trimNewStart, trimNewEnd]
  split_ifs <;> simp <;> omega

theorem trimWindow_revert (f s e l t : ℕ)
    (h : trimNewStart f s l ≥ trimNewEnd f s e t) :
    trimWindow f s e l t = (s, e) := by
  simp only [trimWindow]
  rw [if_pos h]

theorem trimGo_all_lt (sr ti : ℕ) (lead trail : ℕ → ℕ → ℕ) (cancel : ℕ → Bool)
    (ts : List (ℕ × ℕ)) :
    ∀ (i : ℕ) (acc : List (ℕ × ℕ)),
      (∀ w ∈ acc, w.1 < w.2) → (∀ w ∈ ts, w.1 < w.2) →
      ∀ w ∈ (trimGo sr ti lead trail cancel i acc ts).1, w.1 < w.2 := by
  induction ts with
  | nil =>
    intro i acc hacc _
    simpa [trimGo] using hacc
  | cons head rest ih =>
    obtain ⟨s, e⟩ := head
    intro i acc hacc hts
    have hse : s < e := hts (s, e) (List.mem_cons_self _ _)
    have hrest : ∀ w ∈ rest, w.1 < w.2 := fun w hw => hts w (List.mem_cons_of_mem _ hw)
    simp only [trimGo]
    by_cases hc : cancel i
    · simp [hc]
    · simp only [hc, Bool.false_eq_true, if_false]
      split_ifs with hslice
      · refine ih (i + 1) _ ?_ hrest
        intro w hw
        rcases List.mem_append.mp hw with h | h
        · exact hacc w h
        · rw [List.mem_singleton.mp h]; exact hse
      · refine ih (i + 1) _ ?_ hrest
        intro w hw
        rcases List.mem_append.mp hw with h | h
        · exact hacc w h
        · rw [List.mem_singleton.mp h]; exact trimWindow_lt _ _ _ _ _ hse

theorem trimGo_cancel (sr ti : ℕ) (lead trail : ℕ → ℕ → ℕ) (cancel : ℕ → Bool)
    (ts : List (ℕ × ℕ)) :
    ∀ (i0 k : ℕ) (acc : List (ℕ × ℕ)), k < ts.length →
      (∀ j, j < k → cancel (i0 + j) = false) → cancel (i0 + k) = true →
      trimGo sr ti lead trail cancel i0 acc ts = ([], ProgressStatus.Cancelled) := by
  induction ts with
  | nil =>
    intro i0 k acc hk
    simp at hk
  | cons head rest ih =>
    obtain ⟨s, e⟩ := head
    intro i0 k acc hk hbefore hc
    match k with
    | 0 =>
      simp only [Nat.add_zero] at hc
      simp [trimGo, hc]
    | k + 1 =>
      have h0 : cancel i0 = false := by simpa using hbefore 0 (Nat.succ_pos k)
      have hbefore' : ∀ j, j < k → cancel (i0 + 1 + j) = false := by
        intro j hj
        have : i0 + 1 + j = i0 + (j + 1) := by omega
        rw [this]
        exact hbefore (j + 1) (by omega)
      have hc' : cancel (i0 + 1 + k) = true := by
        have : i0 + 1 + k = i0 + (k + 1) := by omega
        rw [this]; exact hc
      have hk' : k < rest.length := by simpa using hk
      simp only [trimGo, h0, Bool.false_eq_true, if_false]
      split_ifs with hslice
      · exact ih (i0 + 1) k _ hk' hbefore' hc'
      · exact ih (i0 + 1) k _ hk' hbefore' hc'

theorem detectGo_all_speech (vad : EnergyVAD) (samples : List ℚ) :
    ∀ (idxs : List ℕ) (segs : List (ℕ × ℕ)) (s e : ℕ) (act : Bool),
      (∀ i ∈ idxs, contain_speech vad (frameAt vad samples i) = true) →
      (detectGo vad samples idxs (segs, s, e, act)).1 = segs := by
  intro idxs
  induction idxs with
  | nil => intro segs s e act _; rfl
  | cons i rest ih =>
    intro segs s e act hall
    have hs : contain_speech vad ((samples.drop (i * frameShiftOf vad)).take
        (min (i * frameShiftOf vad + frameSizeOf vad) samples.length
          - i * frameShiftOf vad)) = true := by
      simpa [frameAt] using hall i (List.mem_cons_self _ _)
    simp only [detectGo]
    split_ifs with hbreak
    · rfl
    · exact ih _ _ _ _ (fun j hj => hall j (List.mem_cons_of_mem _ hj))

/-! Section: the claims. -/

/-- Claim C1 counterexample: The claim asserts that uniformly loud audio
(every scanned frame classified as speech) yields exactly one segment
spanning roughly `[0, total_duration_ms]`.  On such audio the scan never
leaves the Active state, so no segment is ever closed, and the
end-of-scan flush only fires when `segments.last()` already exists —
the function returns the empty list.  Concretely: 5 samples of
amplitude 1 at 10 Hz (threshold 0.1, i.e. `thresholdSq = 1/100`), five
scanned frames, all speech, result `[]`, not one segment. -/
theorem detect_all_active_uniform_loud_counterexample :
    detect_all_active_segments ⟨1 / 100, 10, 200, 100⟩
        (List.replicate 5 (1 : ℚ)) = [] ∧
    (List.replicate 5 (1 : ℚ)).length = 5 ∧
    numOffsets (List.replicate 5 (1 : ℚ)).length
      (frameShiftOf ⟨1 / 100, 10, 200, 100⟩) = 5 ∧
    ((List.range 5).all fun i =>
      contain_speech ⟨1 / 100, 10, 200, 100⟩
        (frameAt ⟨1 / 100, 10, 200, 100⟩ (List.replicate 5 (1 : ℚ)) i)) = true := by
  have h5 : numOffsets (List.replicate 5 (1 : ℚ)).length
      (frameShiftOf ⟨1 / 100, 10, 200, 100⟩) = 5 := by
    norm_num [numOffsets, frameShiftOf]
  have hall : ∀ i < numOffsets (List.replicate 5 (1 : ℚ)).length
        (frameShiftOf ⟨1 / 100, 10, 200, 100⟩),
      contain_speech ⟨1 / 100, 10, 200, 100⟩
        (frameAt ⟨1 / 100, 10, 200, 100⟩ (List.replicate 5 (1 : ℚ)) i) = true := by
    rw [h5]
    intro i hi
    interval_cases i <;>
      norm_num [contain_speech, frameAt, frameShiftOf, frameSizeOf, meanSq,
        List.replicate, List.isEmpty]
  refine ⟨?_, by simp, h5, ?_⟩
  · simp only [detect_all_active_segments]
    rw [detectGo_all_speech _ _ _ [] 0 0 false
      (fun i hi => hall i (List.mem_range.mp hi))]
    rfl
  · rw [List.all_eq_true]
    intro i hi
    exact hall i (by rw [h5]; exact List.mem_range.mp hi)

/-- Claim C1, amended: For audio whose scanned frames are all classified
as speech, `detect_all_active_segments` returns the *empty* list: the
open Active segment is never closed during the scan, and the end-of-scan
flush (which emits `(start_ms, total_duration_ms)`) only fires when a
previously closed segment exists, so it never fires here. -/
theorem detect_all_active_uniform_loud_empty (vad : EnergyVAD) (samples : List ℚ)
    (hall : ∀ i < numOffsets samples.length (frameShiftOf vad),
      contain_speech vad (frameAt vad samples i) = true) :
    detect_all_active_segments vad samples = [] := by
  simp only [detect_all_active_segments]
  rw [detectGo_all_speech vad samples _ [] 0 0 false
    (fun i hi => hall i (List.mem_range.mp hi))]
  rfl

/-- Claim C1 amended-theorem witness: the uniformly loud clip above, through the
amended theorem. -/
theorem detect_all_active_uniform_loud_empty_witness :
    detect_all_active_segments ⟨1 / 100, 10, 200, 100⟩
      (List.replicate 5 (1 : ℚ)) = [] :=
  detect_all_active_uniform_loud_empty ⟨1 / 100, 10, 200, 100⟩
    (List.replicate 5 (1 : ℚ)) (by
      have h5 : numOffsets (List.replicate 5 (1 : ℚ)).length
          (frameShiftOf ⟨1 / 100, 10, 200, 100⟩) = 5 := by
        norm_num [numOffsets, frameShiftOf]
      rw [h5]
      intro i hi
      interval_cases i <;>
        norm_num [contain_speech, frameAt, frameShiftOf, frameSizeOf, meanSq,
          List.replicate, List.isEmpty])

/-- Claim C4: For every input window `(start_ms, end_ms)` with
`start_ms < end_ms`, `trim_slient_duration_of_audio` never emits an
output window with `end_ms ≤ start_ms`: every window of the output list
satisfies `start < end`, and whenever the silence-derived
`new_start ≥ new_end` the original window is pushed unchanged. -/
theorem trim_never_emits_degenerate_window
    (sample_rate total_indexs : ℕ) (lead trail : ℕ → ℕ → ℕ) (cancel : ℕ → Bool)
    (timestamps : List (ℕ × ℕ)) (s e l t : ℕ)
    (hin : ∀ w ∈ timestamps, w.1 < w.2)
    (_hse : s < e)
    (hdeg : trimNewStart 200 s l ≥ trimNewEnd 200 s e t) :
    ((trim_slient_duration_of_audio sample_rate total_indexs lead trail cancel
        timestamps).1.all fun w => decide (w.1 < w.2)) = true ∧
    trimWindow 200 s e l t = (s, e) := by
  constructor
  · rw [List.all_eq_true]
    intro w hw
    simpa using trimGo_all_lt sample_rate total_indexs lead trail cancel
      timestamps 0 [] (by simp) hin w hw
  · exact trimWindow_revert _ _ _ _ _ hdeg

/-- Claim C4 witness: a window whose derived leading silence would push
`new_start` past `new_end` is emitted unchanged, and the output windows
all satisfy `start < end`. -/
theorem trim_never_emits_degenerate_window_witness :
    ((trim_slient_duration_of_audio 16000 1000000 (fun _ _ => 100000)
        (fun _ _ => 0) (fun _ => false) [(0, 1000)]).1.all
      fun w => decide (w.1 < w.2)) = true ∧
    trimWindow 200 0 1000 100000 0 = (0, 1000) :=
  trim_never_emits_degenerate_window 16000 1000000 (fun _ _ => 100000)
    (fun _ _ => 0) (fun _ => false) [(0, 1000)] 0 1000 100000 0
    (by decide) (by decide) (by decide)

/-- Claim C8: `trim_slient_duration_of_audio` checks the cancellation flag
before processing each window; when the flag first reads true (at window
index `k`, having read false at every earlier check), the function
returns the successful result `([], Cancelled)` — an empty window list
with the distinct `Cancelled` status, no partially trimmed windows. -/
theorem trim_cancellation_returns_empty_cancelled
    (sample_rate total_indexs : ℕ) (lead trail : ℕ → ℕ → ℕ) (cancel : ℕ → Bool)
    (timestamps : List (ℕ × ℕ)) (k : ℕ)
    (hk : k < timestamps.length)
    (hbefore : ∀ j, j < k → cancel j = false)
    (hc : cancel k = true) :
    trim_slient_duration_of_audio sample_rate total_indexs lead trail cancel
      timestamps = ([], ProgressStatus.Cancelled) := by
  refine trimGo_cancel sample_rate total_indexs lead trail cancel timestamps 0 k [] hk ?_ ?_
  · simpa using hbefore
  · simpa using hc

/-- Claim C8 witness: the flag set from the second check on cancels a
three-window run with an empty payload. -/
theorem trim_cancellation_returns_empty_cancelled_witness :
    trim_slient_duration_of_audio 16000 1000000 (fun _ _ => 0) (fun _ _ => 0)
      (fun i => decide (1 ≤ i)) [(0, 1000), (1000, 2000), (2000, 3000)] =
      ([], ProgressStatus.Cancelled) :=
  trim_cancellation_returns_empty_cancelled 16000 1000000 (fun _ _ => 0)
    (fun _ _ => 0) (fun i => decide (1 ≤ i))
    [(0, 1000), (1000, 2000), (2000, 3000)] 1
    (by decide) (by decide) (by decide)

/-- Claim C9: `WhisperConfig::validate` fails **if and only if** the
model path does not exist, the thread count is not strictly positive, or
the temperature lies outside `[0, 1]` — stated for every configuration,
failing or passing; and `WhisperTranscriber::new` validates before
loading the model: whenever validation fails, the result of `new` is the
same error for every loader, so the model is never loaded (and there is
no retry path). -/
theorem whisper_config_validate_iff
    (fsExists : String → Bool) (loadModel loadModel2 : String → Except String Unit)
    (config : WhisperConfig) :
    (exceptIsOk (WhisperConfig.validate fsExists config) = false ↔
      (fsExists config.model_path = false ∨ config.n_threads ≤ 0 ∨
        config.temperature < 0 ∨ 1 < config.temperature)) ∧
    (exceptIsOk (WhisperConfig.validate fsExists config) = false →
      WhisperTranscriber.new fsExists loadModel config =
        WhisperTranscriber.new fsExists loadModel2 config ∧
      exceptIsOk (WhisperTranscriber.new fsExists loadModel config) = false) := by
  refine ⟨?_, ?_⟩
  · unfold WhisperConfig.validate
    by_cases h1 : fsExists config.model_path
    · rw [if_neg (by simp [h1])]
      by_cases h2 : config.n_threads ≤ 0
      · rw [if_pos h2]
        exact ⟨fun _ => Or.inr (Or.inl h2), fun _ => rfl⟩
      · rw [if_neg h2]
        by_cases h3 : 0 ≤ config.temperature ∧ config.temperature ≤ 1
        · rw [if_neg (by simpa using h3)]
          refine ⟨fun h => absurd h (by simp [exceptIsOk]), fun h => ?_⟩
          exfalso
          rcases h with h | h | h | h
          · simp [h1] at h
          · exact h2 h
          · exact absurd h3.1 (not_le.mpr h)
          · exact absurd h3.2 (not_le.mpr h)
        · rw [if_pos (by simpa using h3)]
          refine ⟨fun _ => Or.inr (Or.inr ?_), fun _ => rfl⟩
          rcases not_and_or.mp h3 with h | h
          · exact Or.inl (lt_of_not_le h)
          · exact Or.inr (lt_of_not_le h)
    · rw [if_pos (by simpa using h1)]
      exact ⟨fun _ => Or.inl (by simpa using h1), fun _ => rfl⟩
  · intro hfail
    cases hval : WhisperConfig.validate fsExists config with
    | ok u =>
      rw [hval] at hfail
      simp [exceptIsOk] at hfail
    | error e =>
      unfold WhisperTranscriber.new
      rw [hval]
      exact ⟨rfl, rfl⟩

/-- Claim C9 witness: both directions of the iff at concrete
configurations.  A configuration whose model path is missing fails
validation (the "if" direction forces the failure), and `new` then fails
identically under two different loaders; a configuration with an
existing path, 4 threads and temperature 0 — none of the three failure
conditions — passes validation. -/
theorem whisper_config_validate_iff_witness :
    exceptIsOk (WhisperConfig.validate (fun _ => false)
      ⟨"models/ggml-base.bin", none, none, false, 4, 0, none, none, false,
        none, none⟩) = false ∧
    WhisperTranscriber.new (fun _ => false) (fun _ => Except.ok ())
        ⟨"models/ggml-base.bin", none, none, false, 4, 0, none, none, false,
          none, none⟩ =
      WhisperTranscriber.new (fun _ => false) (fun _ => Except.error "x")
        ⟨"models/ggml-base.bin", none, none, false, 4, 0, none, none, false,
          none, none⟩ ∧
    exceptIsOk (WhisperTranscriber.new (fun _ => false) (fun _ => Except.ok ())
      ⟨"models/ggml-base.bin", none, none, false, 4, 0, none, none, false,
        none, none⟩) = false ∧
    exceptIsOk (WhisperConfig.validate (fun _ => true)
      ⟨"models/ggml-base.bin", none, none, false, 4, 0, none, none, false,
        none, none⟩) = true := by
  have hbad := whisper_config_validate_iff (fun _ => false) (fun _ => Except.ok ())
    (fun _ => Except.error "x")
    ⟨"models/ggml-base.bin", none, none, false, 4, 0, none, none, false,
      none, none⟩
  have hfail : exceptIsOk (WhisperConfig.validate (fun _ => false)
      ⟨"models/ggml-base.bin", none, none, false, 4, 0, none, none, false,
        none, none⟩) = false :=
    hbad.1.mpr (Or.inl rfl)
  obtain ⟨heq, hko⟩ := hbad.2 hfail
  have hgood := whisper_config_validate_iff (fun _ => true) (fun _ => Except.ok ())
    (fun _ => Except.ok ())
    ⟨"models/ggml-base.bin", none, none, false, 4, 0, none, none, false,
      none, none⟩
  have hok : exceptIsOk (WhisperConfig.validate (fun _ => true)
      ⟨"models/ggml-base.bin", none, none, false, 4, 0, none, none, false,
        none, none⟩) = true := by
    cases hb : exceptIsOk (WhisperConfig.validate (fun _ => true)
        ⟨"models/ggml-base.bin", none, none, false, 4, 0, none, none, false,
          none, none⟩) with
    | true => rfl
    | false =>
      rcases hgood.1.mp hb with h | h | h | h
      · exact absurd h (by simp)
      · exact absurd h (by norm_num)
      · exact absurd h (by norm_num)
      · exact absurd h (by norm_num)
  exact ⟨hfail, heq, hko, hok⟩

/-- Claim C10 counterexample: The claim asserts
`detect_trailing_silent_duration_ms` is total even for a slice shorter
than one frame.  It is not: for the default 16 kHz VAD
(`frame_size = 3200` samples) and a 1600-sample slice — the slice a
100 ms window produces through `trim_slient_duration_of_audio` — the
expression `samples.len() - frame_size + frame_shift - 1` underflows
(`none` models the debug-build panic). -/
theorem detect_trailing_underflow_counterexample :
    detect_trailing_silent_duration_ms (EnergyVAD.new 16000)
      (List.replicate 1600 (0 : ℚ)) = none := by
  simp only [detect_trailing_silent_duration_ms, List.length_replicate]
  norm_num [frameSizeOf, EnergyVAD.new]

/-- Claim C10, amended: `detect_trailing_silent_duration_ms` returns a
value exactly on slices of at least one frame: with
`frame_size ≤ samples.len()` and a positive frame shift the unsigned
expression does not underflow and the function returns; for a slice
shorter than one frame it underflows (a panic in a debug build). -/
theorem detect_trailing_total_iff_long_enough (vad : EnergyVAD) (samples : List ℚ)
    (h1 : frameSizeOf vad ≤ samples.length) (h2 : 1 ≤ frameShiftOf vad) :
    (detect_trailing_silent_duration_ms vad samples).isSome = true := by
  simp only [detect_trailing_silent_duration_ms]
  split_ifs with ha hb hc
  · omega
  · omega
  · omega
  · simp

/-- Claim C10 amended-theorem witness: a slice of exactly one frame is handled. -/
theorem detect_trailing_total_iff_long_enough_witness :
    (detect_trailing_silent_duration_ms (EnergyVAD.new 16000)
      (List.replicate 3200 (0 : ℚ))).isSome = true :=
  detect_trailing_total_iff_long_enough (EnergyVAD.new 16000)
    (List.replicate 3200 (0 : ℚ))
    (by norm_num [frameSizeOf, EnergyVAD.new])
    (by norm_num [frameShiftOf, EnergyVAD.new])

/-- Claim C7: When the audio's total duration is at most `chunk_length_ms`,
`split_audio_into_chunks` emits exactly one chunk holding all samples
with `start_offset_ms = 0`. -/
theorem split_audio_single_chunk (config : WhisperConfig) (audio : AudioData)
    (h : ((audio.samples.length : ℚ) / (audio.sample_rate : ℚ)) * 1000 ≤
      ((config.chunk_length_ms.getD 60000 : ℕ) : ℚ)) :
    split_audio_into_chunks config audio = [⟨audio.samples, 0⟩] := by
  unfold split_audio_into_chunks
  rw [if_pos h]

/-- Claim C7 witness: a quarter-millisecond clip at 16 kHz against the
default 60 s chunk length. -/
theorem split_audio_single_chunk_witness :
    split_audio_into_chunks
      ⟨"m", none, none, false, 4, 0, none, none, false, none, none⟩
      ⟨List.replicate 4 (1 : ℚ), 16000⟩ = [⟨List.replicate 4 (1 : ℚ), 0⟩] :=
  split_audio_single_chunk
    ⟨"m", none, none, false, 4, 0, none, none, false, none, none⟩
    ⟨List.replicate 4 (1 : ℚ), 16000⟩ (by norm_num)

/-- Claim C6 counterexample: The claim says `split_subtitle_into_two`
returns no split for every text of at most one character, including a
single character occupying more than one byte.  The guard tests the
trimmed *byte* length, so the single three-byte character `你` passes it
and a split is returned (with an empty first half). -/
theorem split_subtitle_single_multibyte_char_counterexample :
    (['你'] : List Char).length = 1 ∧
    split_subtitle_into_two simpleGraphemes 0 1000 ['你'] =
      some ((0, 0, []), (0, 1000, ['你'])) := by
  constructor
  · rfl
  · decide

/-- Claim C6, amended: `split_subtitle_into_two` returns no split
whenever the text is empty or its trimmed UTF-8 *byte* length is at most
one — in particular for the empty string and any single one-byte
character; a single multi-byte character is not rejected. -/
theorem split_subtitle_rejects_short_text
    (graphemes : List Char → List (List Char)) (s e : ℕ) (content : List Char)
    (h : content.isEmpty = true ∨ utf8Len (rustTrim content) ≤ 1) :
    split_subtitle_into_two graphemes s e content = none := by
  unfold split_subtitle_into_two
  rw [if_pos (by simpa using h)]

/-- Claim C6 amended-theorem witness: the empty string and a single ASCII
character are both rejected. -/
theorem split_subtitle_rejects_short_text_witness :
    split_subtitle_into_two simpleGraphemes 0 1000 [] = none ∧
    split_subtitle_into_two simpleGraphemes 0 1000 ['a'] = none :=
  ⟨split_subtitle_rejects_short_text simpleGraphemes 0 1000 [] (by decide),
   split_subtitle_rejects_short_text simpleGraphemes 0 1000 ['a'] (by decide)⟩

/-- Claim C5: Whenever `split_subtitle_into_two(start, end, text)` with
`start ≤ end` returns a split, the two tuples are time-contiguous
(`first.start = start`, `first.end = second.start`, `second.end = end`)
and the boundary equals
`start + (end - start) * char_count(first_half) / char_count(text)`
under integer division, with the total original (untrimmed) character
count of `text` as denominator. -/
theorem split_subtitle_contiguous (graphemes : List Char → List (List Char))
    (s e : ℕ) (content : List Char) (p q : ℕ × ℕ × List Char)
    (_hse : s ≤ e)
    (hsome : split_subtitle_into_two graphemes s e content = some (p, q)) :
    p.1 = s ∧ p.2.1 = q.1 ∧ q.2.1 = e ∧
    p.2.1 = s + (e - s) * p.2.2.length / content.length := by
  simp only [split_subtitle_into_two] at hsome
  split_ifs at hsome with h1 h2
  · simp only [Option.some.injEq, Prod.mk.injEq] at hsome
    obtain ⟨hp, hq⟩ := hsome
    subst hp; subst hq
    exact ⟨rfl, rfl, rfl, rfl⟩
  · split at hsome
    · exact absurd hsome (by simp)
    · simp only [Option.some.injEq, Prod.mk.injEq] at hsome
      obtain ⟨hp, hq⟩ := hsome
      subst hp; subst hq
      exact ⟨rfl, rfl, rfl, rfl⟩

/-- Claim C5 witness: splitting `"Hello, world!"` over `[0, 1000]` gives
contiguous halves with boundary `1000 * 6 / 13 = 461`. -/
theorem split_subtitle_contiguous_witness :
    ((0 : ℕ), (461 : ℕ), "Hello,".toList).1 = 0 ∧
    ((0 : ℕ), (461 : ℕ), "Hello,".toList).2.1 =
      ((461 : ℕ), (1000 : ℕ), "world!".toList).1 ∧
    ((461 : ℕ), (1000 : ℕ), "world!".toList).2.1 = 1000 ∧
    ((0 : ℕ), (461 : ℕ), "Hello,".toList).2.1 =
      0 + (1000 - 0) * "Hello,".toList.length / "Hello, world!".toList.length :=
  split_subtitle_contiguous simpleGraphemes 0 1000 "Hello, world!".toList
    (0, 461, "Hello,".toList) (461, 1000, "world!".toList) (by decide) (by decide)

theorem extractGo_no_skip (g : ℤ) (raws : List RawSegment) :
    ∀ (j : ℕ),
      (∀ r ∈ raws, (rustTrim r.text).isEmpty = false) →
      extractGo g j (raws.map some) =
        (List.enumFrom j raws).map (fun pr =>
          { index := g + (pr.1 : ℤ) + 1
            start_time := pr.2.start_ts * 10
            end_time := pr.2.end_ts * 10
            text := rustTrim pr.2.text
            confidence := pr.2.confidence }) := by
  induction raws with
  | nil => intro j _; rfl
  | cons r rest ih =>
    intro j hall
    have hr : (rustTrim r.text).isEmpty = false := hall r (List.mem_cons_self _ _)
    simp only [List.map_cons, extractGo, hr, Bool.false_eq_true, if_false,
      List.enumFrom]
    rw [ih (j + 1) (fun x hx => hall x (List.mem_cons_of_mem _ hx))]

theorem mergeChunksGo_no_skip (cs : List (ℕ × List RawSegment)) :
    ∀ (g : ℤ),
      (∀ c ∈ cs, ∀ r ∈ c.2, (rustTrim r.text).isEmpty = false) →
      mergeChunksGo g (liftChunks cs) =
        (List.enumFrom 0 (flatChunks cs)).map (fun pr =>
          { index := g + (pr.1 : ℤ) + 1
            start_time := pr.2.2.start_ts * 10 + pr.2.1
            end_time := pr.2.2.end_ts * 10 + pr.2.1
            text := rustTrim pr.2.2.text
            confidence := pr.2.2.confidence }) := by
  induction cs with
  | nil => intro g _; rfl
  | cons c rest ih =>
    obtain ⟨off, raws⟩ := c
    intro g hall
    have hraws : ∀ r ∈ raws, (rustTrim r.text).isEmpty = false :=
      fun r hr => hall (off, raws) (List.mem_cons_self _ _) r hr
    have hrest : ∀ c ∈ rest, ∀ r ∈ c.2, (rustTrim r.text).isEmpty = false :=
      fun c hc => hall c (List.mem_cons_of_mem _ hc)
    simp only [liftChunks, List.map_cons, mergeChunksGo,
      extract_transcription_result_with_offset]
    rw [extractGo_no_skip g raws 0 hraws]
    simp only [List.length_map, List.enumFrom_length]
    have ih2 := ih (g + (raws.length : ℤ)) hrest
    simp only [liftChunks] at ih2
    rw [ih2]
    have hflat : flatChunks ((off, raws) :: rest) =
        (raws.map fun r => (off, r)) ++ flatChunks rest := by
      simp [flatChunks]
    rw [hflat, List.enumFrom_append, List.map_append]
    congr 1
    · rw [List.enumFrom_map, List.map_map, List.map_map]
      rfl
    · rw [List.length_map, Nat.zero_add]
      conv_rhs => rw [show raws.length = raws.length + 0 from rfl,
        ← List.map_fst_add_enumFrom_eq_enumFrom (flatChunks rest) raws.length 0]
      rw [List.map_map]
      apply List.map_congr_left
      intro pr _
      obtain ⟨j, off2, r⟩ := pr
      simp only [Function.comp_apply, Prod.map, id, TranscriptionSegment.mk.injEq,
        and_true, true_and]
      push_cast
      ring

/-- Claim C3 counterexample: The claim asserts that merged segment indices
are 1-based and globally contiguous.  `extract_transcription_result_with_offset`
numbers a kept segment by its *raw slot position* (`start + i + 1`) while
the running counter advances by the number of *kept* segments, so a
skipped slot (empty text after trim) leaves a gap and makes the next
chunk reuse an index.  Concretely: chunk 1 produces a skipped empty
segment followed by `"hi"`, chunk 2 produces `"yo"`; the merged indices
are `[2, 2]` — neither 1-based nor contiguous. -/
theorem merge_chunks_index_gap_counterexample :
    (mergeChunks [(0, [some ⟨1, 2, [], 1⟩, some ⟨3, 4, ['h', 'i'], 1⟩]),
        (1000, [some ⟨0, 1, ['y', 'o'], 1⟩])]).map (fun s => s.index) = [2, 2] ∧
    (mergeChunks [(0, [some ⟨1, 2, [], 1⟩, some ⟨3, 4, ['h', 'i'], 1⟩]),
        (1000, [some ⟨0, 1, ['y', 'o'], 1⟩])]).map (fun s => s.index) ≠
      (List.range (mergeChunks [(0, [some ⟨1, 2, [], 1⟩, some ⟨3, 4, ['h', 'i'], 1⟩]),
        (1000, [some ⟨0, 1, ['y', 'o'], 1⟩])]).length).map (fun k => (k : ℤ) + 1) := by
  constructor
  · rfl
  · intro h
    have h2 : ([2, 2] : List ℤ) = [1, 2] := by
      calc ([2, 2] : List ℤ)
          = (mergeChunks [(0, [some ⟨1, 2, [], 1⟩, some ⟨3, 4, ['h', 'i'], 1⟩]),
              (1000, [some ⟨0, 1, ['y', 'o'], 1⟩])]).map (fun s => s.index) := by rfl
        _ = _ := h
        _ = [1, 2] := by rfl
    simp at h2

/-- Claim C3, amended: In chunked transcription every kept segment's
timestamps are the raw whisper timestamps (×10) offset by its chunk's
`start_offset_ms`, and its index is the running count of previously kept
segments plus its raw slot position in its chunk plus one.  When no raw
slot is skipped (every slot present with nonempty trimmed text) — and
only then — the merged indices are 1-based and globally contiguous: the
merged list is exactly the flattened raw list, enumerated from 0, with
`index = position + 1` and offset-shifted times. -/
theorem merge_chunks_offset_and_contiguous
    (cs : List (ℕ × List RawSegment))
    (h : ∀ c ∈ cs, ∀ r ∈ c.2, (rustTrim r.text).isEmpty = false) :
    mergeChunks (liftChunks cs) =
      (List.enumFrom 0 (flatChunks cs)).map (fun pr =>
        { index := (pr.1 : ℤ) + 1
          start_time := pr.2.2.start_ts * 10 + pr.2.1
          end_time := pr.2.2.end_ts * 10 + pr.2.1
          text := rustTrim pr.2.2.text
          confidence := pr.2.2.confidence }) := by
  have hmain := mergeChunksGo_no_skip cs 0 h
  simpa [mergeChunks] using hmain

/-- Claim C3 amended-theorem witness: two single-segment chunks merge to indices
`1, 2` with times offset by `0` and `5000`. -/
theorem merge_chunks_offset_and_contiguous_witness :
    mergeChunks (liftChunks [(0, [⟨1, 2, ['h', 'i'], 1⟩]),
        (5000, [⟨3, 4, ['y', 'o'], 1⟩])]) =
      (List.enumFrom 0 (flatChunks [(0, [⟨1, 2, ['h', 'i'], 1⟩]),
        (5000, [⟨3, 4, ['y', 'o'], 1⟩])])).map (fun pr =>
        { index := (pr.1 : ℤ) + 1
          start_time := pr.2.2.start_ts * 10 + pr.2.1
          end_time := pr.2.2.end_ts * 10 + pr.2.1
          text := rustTrim pr.2.2.text
          confidence := pr.2.2.confidence }) :=
  merge_chunks_offset_and_contiguous
    [(0, [⟨1, 2, ['h', 'i'], 1⟩]), (5000, [⟨3, 4, ['y', 'o'], 1⟩])]
    (by decide)

theorem isDigit_digitChar : ∀ k < 10, (Nat.digitChar k).isDigit = true := by decide

theorem dval_digitChar : ∀ k < 10, dval (Nat.digitChar k) = k := by decide

theorem padAtLeast2_eq : ∀ n < 100,
    padAtLeast2 n = [Nat.digitChar (n / 10), Nat.digitChar (n % 10)] := by decide

set_option maxRecDepth 10000 in
theorem padAtLeast3_eq : ∀ n < 1000,
    padAtLeast3 n = [Nat.digitChar (n / 100), Nat.digitChar (n / 10 % 10),
      Nat.digitChar (n % 10)] := by decide

theorem parse2_digits (a b : ℕ) (ha : a < 10) (hb : b < 10) (rest : List Char) :
    parse2 (Nat.digitChar a :: Nat.digitChar b :: rest) = some (10 * a + b, rest) := by
  simp [parse2, isDigit_digitChar a ha, isDigit_digitChar b hb,
    dval_digitChar a ha, dval_digitChar b hb]

theorem expectChar_cons_self (c : Char) (rest : List Char) :
    expectChar c (c :: rest) = some rest := by
  simp [expectChar]

theorem parseFrac_three (a b c : ℕ) (ha : a < 10) (hb : b < 10) (hc : c < 10) :
    parseFrac [Nat.digitChar a, Nat.digitChar b, Nat.digitChar c] =
      some (100 * a + 10 * b + c, []) := by
  simp [parseFrac, List.takeWhile, isDigit_digitChar a ha, isDigit_digitChar b hb,
    isDigit_digitChar c hc, dval_digitChar a ha, dval_digitChar b hb,
    dval_digitChar c hc]
  ring

/-- Claim C2: For every `ms` below one day
(`ms < 86 400 000`), `srt_timestamp_to_ms (ms_to_srt_timestamp ms) = ms`;
and the fractional field of `HH:MM:SS,fraction` is decoded as a direct
millisecond count (a one-digit field `"5"` decodes to 5 ms, not to a
scaled 500 ms). -/
theorem srt_timestamp_round_trip (ms : ℕ) (hms : ms < 86400000) :
    srt_timestamp_to_ms (ms_to_srt_timestamp ms) = some ms ∧
    srt_timestamp_to_ms (String.toList "00:00:00,5") = some 5 := by
  refine ⟨?_, by decide⟩
  have hh : ms / 1000 / 3600 < 100 := by omega
  have hm : ms / 1000 % 3600 / 60 < 100 := by omega
  have hs : ms / 1000 % 60 < 100 := by omega
  have hmil : ms % 1000 < 1000 := by omega
  simp only [ms_to_srt_timestamp, ms_to_timestamp]
  rw [padAtLeast2_eq _ hh, padAtLeast2_eq _ hm, padAtLeast2_eq _ hs,
    padAtLeast3_eq _ hmil]
  simp only [List.cons_append, List.nil_append]
  rw [srt_timestamp_to_ms]
  rw [parse2_digits _ _ (by omega) (by omega)]
  simp only []
  rw [expectChar_cons_self]
  simp only []
  rw [parse2_digits _ _ (by omega) (by omega)]
  simp only []
  rw [expectChar_cons_self]
  simp only []
  rw [parse2_digits _ _ (by omega) (by omega)]
  simp only []
  rw [expectChar_cons_self]
  simp only []
  rw [parseFrac_three _ _ _ (by omega) (by omega) (by omega)]
  simp only []
  rw [if_pos]
  · congr 1
    omega
  · exact ⟨by omega, by omega, by omega, by omega, trivial⟩

/-- Claim C2 witness: `3 723 456 ms` encodes to `"01:02:03,456"` and decodes
back to itself. -/
theorem srt_timestamp_round_trip_witness :
    srt_timestamp_to_ms (ms_to_srt_timestamp 3723456) = some 3723456 :=
  (srt_timestamp_round_trip 3723456 (by norm_num)).1

end Whispercap
